import Mathlib

/-!
Verification development for the valida-prospect enrichment pipeline
(`src/main.py`).  Python values are modelled by the inductive type `Py`,
Python strings by `List Char`.  Each business function of `main.py` is
translated into a Lean definition of the same name (modulo Lean naming
restrictions); the batch enrichment loop of `enriquecer_dataframe` is
modelled as a state-passing fold that additionally records the externally
observable events (registry calls and cooldown sleeps) as a trace.
-/

/-- Shorthand for the character list underlying a string literal. -/
def chars (s : String) : List Char := s.toList

/-- A Python runtime value, as far as the pipeline manipulates them:
`None`, booleans, integers, strings, lists and (string-keyed) dicts. -/
inductive Py where
  | pnone : Py
  | pbool : Bool → Py
  | pint : Int → Py
  | pstr : List Char → Py
  | plist : List Py → Py
  | pdict : List (List Char × Py) → Py

/-- Python truthiness (`bool(x)`): `None`, `False`, `0`, and empty
strings/lists/dicts are falsy, everything else is truthy. -/
def pyTruthy : Py → Bool
  | .pnone => false
  | .pbool b => b
  | .pint n => n != 0
  | .pstr s => !s.isEmpty
  | .plist xs => !xs.isEmpty
  | .pdict kvs => !kvs.isEmpty

/-- Python `a or b`: `a` if truthy, otherwise `b`. -/
def pyOr (a b : Py) : Py := if pyTruthy a then a else b

mutual
/-- Python `repr` for the modelled values.  For `None`, booleans and
integers this is exact.  For strings and containers the overall shape
(quoting, brackets, comma/colon separators) is modelled; escaping of
special characters inside string quotes is not (no claim depends on the
repr of containers or of strings holding quote characters). -/
def pyRepr : Py → List Char
  | .pnone => chars "None"
  | .pbool true => chars "True"
  | .pbool false => chars "False"
  | .pint n => (toString n).toList
  | .pstr s => Char.ofNat 39 :: (s ++ [Char.ofNat 39])
  | .plist xs => '[' :: (pyReprItems xs ++ [']'])
  | .pdict kvs => Char.ofNat 123 :: (pyReprEntries kvs ++ [Char.ofNat 125])

/-- Comma-separated reprs of the elements of a Python list. -/
def pyReprItems : List Py → List Char
  | [] => []
  | [x] => pyRepr x
  | x :: xs => pyRepr x ++ chars ", " ++ pyReprItems xs

/-- Comma-separated `key: value` reprs of the entries of a Python dict. -/
def pyReprEntries : List (List Char × Py) → List Char
  | [] => []
  | [(k, v)] => (Char.ofNat 39 :: (k ++ [Char.ofNat 39])) ++ chars ": " ++ pyRepr v
  | (k, v) :: rest =>
      (Char.ofNat 39 :: (k ++ [Char.ofNat 39])) ++ chars ": " ++ pyRepr v
        ++ chars ", " ++ pyReprEntries rest
end

/-- Python `str(x)`: the string itself for strings, `repr` otherwise
(for the value kinds modelled here `str` and `repr` agree on
non-strings). -/
def pyStr : Py → List Char
  | .pstr s => s
  | v => pyRepr v

/-- Python `str.strip()` whitespace predicate (ASCII whitespace). -/
def isPySpace (c : Char) : Bool :=
  c = ' ' || c = Char.ofNat 9 || c = Char.ofNat 10 || c = Char.ofNat 13 ||
  c = Char.ofNat 11 || c = Char.ofNat 12

/-- Python `s.strip()`: drop whitespace from both ends. -/
def pyStrip (s : List Char) : List Char :=
  ((s.dropWhile isPySpace).reverse.dropWhile isPySpace).reverse

/-- Python `s.lower()` (ASCII case folding). -/
def pyLower (s : List Char) : List Char := s.map Char.toLower

/-- ASCII digit test; models the `\D`/`\d` character classes as used on
the pipeline's inputs. -/
def isAsciiDigit (c : Char) : Bool := 48 ≤ c.toNat && c.toNat ≤ 57

/-- Python `s.split(sep)` for a single-character separator: the list of
chunks between occurrences of `sep` (always `count sep + 1` chunks). -/
def splitOnChar (sep : Char) : List Char → List (List Char)
  | [] => [[]]
  | c :: cs =>
    let r := splitOnChar sep cs
    if c = sep then [] :: r
    else
      match r with
      | [] => [[c]]
      | p :: ps => (c :: p) :: ps

/-- Association-list lookup, modelling Python dict indexing (`k in d` /
`d[k]` / `d.get(k)`). -/
def alookup {β : Type} (k : List Char) : List (List Char × β) → Option β
  | [] => none
  | (k', v) :: rest => if k' = k then some v else alookup k rest

/-- Python `d.get(k, dflt)`. -/
def pyGet (d : List (List Char × Py)) (k : List Char) (dflt : Py) : Py :=
  match alookup k d with
  | some v => v
  | none => dflt

/-- `email_valido_formato` (main.py lines 36-64): basic e-mail format
check.  Non-strings are rejected; the string is stripped; there must be
exactly one at-sign, local part and domain must be non-blank, the domain
must contain a dot and not end with one. -/
def email_valido_formato (v : Py) : Bool :=
  match v with
  | .pstr s0 =>
    let email := pyStrip s0
    if email.contains '@' = false then false
    else
      match splitOnChar '@' email with
      | [usuario, dom] =>
        if pyStrip usuario = [] then false
        else if pyStrip dom = [] then false
        else if dom.contains '.' = false then false
        else if dom.getLast? = some '.' then false
        else true
      | _ => false
  | _ => false

/-- `extrair_dominio` (main.py lines 67-75): the part after the last
at-sign, stripped and lower-cased; `none` when the input is not a string,
has no at-sign, or the result is empty.  (Renamed `extrair_dom` for Lean
naming reasons.) -/
def extrair_dom (v : Py) : Option (List Char) :=
  match v with
  | .pstr s0 =>
    let email := pyStrip s0
    if email.contains '@' = false then none
    else
      let dom := pyLower (pyStrip ((splitOnChar '@' email).getLastD []))
      if dom = [] then none else some dom
  | _ => none

/-- DNS record types used by the pipeline. -/
inductive RecType where
  | MX : RecType
  | A : RecType
deriving DecidableEq

/-- The ambient DNS capability: whether the dnspython import succeeded,
and, for each (domain, record type), whether `dns.resolver.resolve`
succeeds (returns records) or fails (raises). -/
structure DnsEnv where
  available : Bool
  resolve : List Char → RecType → Bool

/-- `dominio_existe` (main.py lines 78-103): non-strings and blank
domains give `false`; without the DNS library, `false`; otherwise try an
MX query, fall back to an A query on failure, `false` only when both
fail. -/
def dominio_existe (env : DnsEnv) (v : Py) : Bool :=
  match v with
  | .pstr s0 =>
    let dom := pyLower (pyStrip s0)
    if dom = [] then false
    else if env.available = false then false
    else if env.resolve dom .MX then true
    else if env.resolve dom .A then true
    else false
  | _ => false

/-- `limpar_cnpj` (main.py lines 106-113): coerce non-strings with
`str()`, keep only digits, and require exactly 14 of them. -/
def limpar_cnpj (v : Py) : Option (List Char) :=
  let digitos := (pyStr v).filter isAsciiDigit
  if digitos.length ≠ 14 then none else some digitos

/-- The section table of `segmento_macro_por_cnae` (main.py lines
179-222): the chain of range tests on the two-digit section. -/
def segmentoDaSecao (sec : Nat) : List Char :=
  if 1 ≤ sec ∧ sec ≤ 3 then chars "Agropecuária"
  else if 5 ≤ sec ∧ sec ≤ 9 then chars "Indústrias extrativas"
  else if 10 ≤ sec ∧ sec ≤ 33 then chars "Indústrias de transformação"
  else if sec = 35 then chars "Eletricidade e gás"
  else if 36 ≤ sec ∧ sec ≤ 39 then chars "Água, esgoto, resíduos"
  else if 41 ≤ sec ∧ sec ≤ 43 then chars "Construção"
  else if 45 ≤ sec ∧ sec ≤ 47 then chars "Comércio / Varejo"
  else if 49 ≤ sec ∧ sec ≤ 53 then chars "Transporte e correio"
  else if 55 ≤ sec ∧ sec ≤ 56 then chars "Alojamento e alimentação"
  else if 58 ≤ sec ∧ sec ≤ 63 then chars "Informação e comunicação"
  else if 64 ≤ sec ∧ sec ≤ 66 then chars "Finanças e seguros"
  else if sec = 68 then chars "Imobiliário"
  else if 69 ≤ sec ∧ sec ≤ 75 then chars "Serviços profissionais"
  else if 77 ≤ sec ∧ sec ≤ 82 then chars "Serviços administrativos"
  else if sec = 84 then chars "Administração pública"
  else if sec = 85 then chars "Educação"
  else if 86 ≤ sec ∧ sec ≤ 88 then chars "Saúde e assistência social"
  else if 90 ≤ sec ∧ sec ≤ 93 then chars "Artes, esporte e recreação"
  else if 94 ≤ sec ∧ sec ≤ 96 then chars "Outros serviços"
  else if 97 ≤ sec ∧ sec ≤ 98 then chars "Serviços domésticos"
  else if sec = 99 then chars "Organismos internacionais"
  else []

/-- The integer value of the first two digit characters
(`int(digitos[:2])` for a digit string of length at least 2). -/
def secOfDigits : List Char → Nat
  | d1 :: d2 :: _ => (d1.toNat - 48) * 10 + (d2.toNat - 48)
  | _ => 0

/-- `segmento_macro_por_cnae` (main.py lines 168-222): non-strings are
coerced by `str(code or "")`; non-digits are stripped; fewer than two
digits give the empty label; otherwise the first two digits select the
section used in the range table. -/
def segmento_macro_por_cnae (v : Py) : List Char :=
  let code : List Char :=
    match v with
    | .pstr s => s
    | _ => pyStr (pyOr v (.pstr []))
  let digitos := code.filter isAsciiDigit
  if digitos.length < 2 then []
  else segmentoDaSecao (secOfDigits digitos)

/-- Normalised success record built by `consultar_cnpj_api`
(main.py lines 158-162). -/
structure ApiResult where
  situacao_cadastral : Py
  cnae_principal_codigo : Py
  cnae_principal_descricao : Py

/-- Outcome of the HTTP GET in `consultar_cnpj_api`: either the request
(or response decoding) raised, or a response arrived with a status code
and — if `.json()` succeeded — a decoded body. -/
inductive HttpOutcome where
  | transportError : HttpOutcome
  | resp : Nat → Option Py → HttpOutcome

/-- `consultar_cnpj_api` (main.py lines 116-165): `None` on transport
error, status 429 (dedicated branch), any other non-200 status, JSON
decode failure, or a non-dict body; otherwise the three fields are
extracted, each missing piece degrading to `None`/empty string. -/
def consultar_cnpj_api (o : HttpOutcome) : Option ApiResult :=
  match o with
  | .transportError => none
  | .resp status body =>
    if status = 429 then none
    else if status ≠ 200 then none
    else
      match body with
      | none => none
      | some data =>
        match data with
        | .pdict entries =>
          let estab0 := pyOr (pyGet entries (chars "estabelecimento") (.pdict [])) (.pdict [])
          let estab : List (List Char × Py) :=
            match estab0 with
            | .pdict es => es
            | _ => []
          let situacao :=
            pyOr (pyGet estab (chars "situacao_cadastral") .pnone)
              (pyGet entries (chars "situacao_cadastral") .pnone)
          let cnae0 := pyOr (pyGet estab (chars "atividade_principal") .pnone) (.pdict [])
          match cnae0 with
          | .pdict ces =>
            some { situacao_cadastral := situacao
                   cnae_principal_codigo :=
                     pyOr (pyGet ces (chars "id") .pnone)
                       (pyOr (pyGet ces (chars "codigo") .pnone) (.pstr []))
                   cnae_principal_descricao := pyOr (pyGet ces (chars "descricao") .pnone) (.pstr []) }
          | _ =>
            some { situacao_cadastral := situacao
                   cnae_principal_codigo := .pstr []
                   cnae_principal_descricao := .pstr [] }
        | _ => none

/-- Quota constant `max_chamadas_por_ciclo = 3` (main.py line 255). -/
def max_chamadas_por_ciclo : Nat := 3

/-- Cooldown constant `tempo_espera = 65` seconds (main.py line 256). -/
def tempo_espera : Nat := 65

/-- Externally observable events of the CNPJ enrichment loop: a call to
the registry for a normalised CNPJ, or a `time.sleep` cooldown of the
given number of seconds. -/
inductive Ev where
  | cooldown : Nat → Ev
  | call : List Char → Ev
deriving DecidableEq

/-- Mutable state of the CNPJ loop (main.py lines 253-254): the in-memory
cache (a dict from normalised CNPJ to the stored lookup result, which may
be `None`) and the per-window call counter. -/
structure EnrichState where
  cnpj_cache : List (List Char × Option ApiResult)
  chamadas_api_no_ciclo : Nat

/-- The four enrichment cells appended to `resultados` for one record
(main.py lines 263-269 / 286-303). -/
structure RowOut where
  cnpj_situacao_cadastral : Py
  cnae_principal_codigo : Py
  cnae_principal_descricao : Py
  segmento : Py

/-- The all-`None` result row (main.py lines 263-270 and 286-293). -/
def mkNull : RowOut :=
  { cnpj_situacao_cadastral := .pnone
    cnae_principal_codigo := .pnone
    cnae_principal_descricao := .pnone
    segmento := .pnone }

/-- Build one result row from a stored lookup result (main.py lines
285-303): `None` (falsy) gives the all-`None` row, a success dict gives
its fields plus the derived segment. -/
def mkOut (info : Option ApiResult) : RowOut :=
  match info with
  | none => mkNull
  | some r =>
    { cnpj_situacao_cadastral := r.situacao_cadastral
      cnae_principal_codigo := r.cnae_principal_codigo
      cnae_principal_descricao := r.cnae_principal_descricao
      segmento := .pstr (segmento_macro_por_cnae (pyOr r.cnae_principal_codigo (.pstr []))) }

/-- Result of processing a single record in the CNPJ loop. -/
structure StepRes where
  out : RowOut
  st : EnrichState
  evs : List Ev

/-- One iteration of the CNPJ loop body (main.py lines 260-303) for the
cell of the CNPJ column: normalise; on failure emit the null row and
touch nothing; on a cache hit reuse the stored result; otherwise sleep
first if the window counter has reached the quota (resetting it), call
the registry, store the result and bump the counter. -/
def enrichStep (net : List Char → HttpOutcome) (st : EnrichState) (cell : Py) : StepRes :=
  match limpar_cnpj cell with
  | none => { out := mkNull, st := st, evs := [] }
  | some k =>
    match alookup k st.cnpj_cache with
    | some info => { out := mkOut info, st := st, evs := [] }
    | none =>
      let pause : List Ev × Nat :=
        if st.chamadas_api_no_ciclo ≥ max_chamadas_por_ciclo then ([Ev.cooldown tempo_espera], 0)
        else ([], st.chamadas_api_no_ciclo)
      let info := consultar_cnpj_api (net k)
      { out := mkOut info
        st := { cnpj_cache := (k, info) :: st.cnpj_cache
                chamadas_api_no_ciclo := pause.2 + 1 }
        evs := pause.1 ++ [Ev.call k] }

/-- Result of the whole CNPJ loop. -/
structure LoopRes where
  outs : List RowOut
  fin : EnrichState
  trace : List Ev

/-- The CNPJ loop of `enriquecer_dataframe` (main.py lines 260-303),
processing the CNPJ column cells in input order and threading the
cache/counter state. -/
def enrichLoop (net : List Char → HttpOutcome) : List Py → EnrichState → LoopRes
  | [], st => { outs := [], fin := st, trace := [] }
  | cell :: cells, st =>
    let s := enrichStep net st cell
    let r := enrichLoop net cells s.st
    { outs := s.out :: r.outs, fin := r.fin, trace := s.evs ++ r.trace }

/-- One enrichment run over the CNPJ column: the loop started from the
state set up at main.py lines 253-254 (`cnpj_cache = {}`,
`chamadas_api_no_ciclo = 0`). -/
def enrichRun (net : List Char → HttpOutcome) (cells : List Py) : LoopRes :=
  enrichLoop net cells { cnpj_cache := [], chamadas_api_no_ciclo := 0 }

/-- Two successive invocations of the enrichment (two runs, e.g. two
process executions or two button presses): `enriquecer_dataframe`
re-initialises `cnpj_cache` to the empty dict on every invocation
(main.py line 253) and persists nothing anywhere, so the second run is
completely independent of the first; the combined event trace is the
concatenation of the two runs' traces. -/
def two_runs (net : List Char → HttpOutcome) (cells1 cells2 : List Py) : List Ev :=
  (enrichRun net cells1).trace ++ (enrichRun net cells2).trace

/-- One input row of the dataframe: the cell of the e-mail column, the
cell of the CNPJ column, and all remaining columns, untouched by the
pipeline. -/
structure Row where
  email : Py
  cnpj : Py
  extras : List (String × Py)

/-- One output row of `enriquecer_dataframe`: the input row (all its
columns verbatim) plus the added columns. -/
structure EnrichedRow where
  orig : Row
  email_valido_formato : Bool
  dominio_existe : Bool
  cnpj_out : RowOut

/-- `checar_dominio_email` (main.py lines 238-246) with its per-run
domain memoisation dict made explicit. -/
def checar_dominio_email (env : DnsEnv) (cache : List (List Char × Bool)) (em : Py) :
    Bool × List (List Char × Bool) :=
  match extrair_dom em with
  | none => (false, cache)
  | some dom =>
    match alookup dom cache with
    | some ok => (ok, cache)
    | none =>
      let ok := dominio_existe env (.pstr dom)
      (ok, (dom, ok) :: cache)

/-- The `dominio_existe` column (main.py line 248): apply
`checar_dominio_email` to each e-mail cell in order, threading the
domain cache. -/
def domainChecksCol (env : DnsEnv) : List Py → List (List Char × Bool) → List Bool
  | [], _ => []
  | em :: ems, cache =>
    let r := checar_dominio_email env cache em
    r.1 :: domainChecksCol env ems r.2

/-- The final column concatenation (main.py lines 305-306): align the
original rows with the three computed columns positionally. -/
def assemble : List Row → List Bool → List Bool → List RowOut → List EnrichedRow
  | r :: rs, e :: es, d :: ds, o :: os =>
    { orig := r, email_valido_formato := e, dominio_existe := d, cnpj_out := o }
      :: assemble rs es ds os
  | _, _, _, _ => []

/-- `enriquecer_dataframe` (main.py lines 225-308): add the e-mail format
column, the domain existence column and the CNPJ enrichment columns to
the dataframe, and return the enriched rows together with the loop's
event trace. -/
def enriquecer_dataframe (env : DnsEnv) (net : List Char → HttpOutcome) (df : List Row) :
    List EnrichedRow × List Ev :=
  let emailOk := df.map fun r => email_valido_formato r.email
  let domOk := domainChecksCol env (df.map (·.email)) []
  let lr := enrichRun net (df.map (·.cnpj))
  (assemble df emailOk domOk lr.outs, lr.trace)

/-- Whether an event is a cooldown. -/
def isCooldownEv : Ev → Bool
  | .cooldown _ => true
  | .call _ => false

/-- Number of registry calls in a trace. -/
def callsIn (tr : List Ev) : Nat := (tr.filter fun e => !isCooldownEv e).length

/-- The CNPJs of the registry calls of a trace, in order. -/
def calledIds (tr : List Ev) : List (List Char) :=
  tr.filterMap fun e =>
    match e with
    | .call k => some k
    | .cooldown _ => none

/-- `windowOk n tr`: starting with `n` calls already made in the current
quota window, the trace `tr` never accumulates more than 3 calls without
an intervening cooldown. -/
def windowOk : Nat → List Ev → Prop
  | _, [] => True
  | n, .call _ :: tr => n + 1 ≤ 3 ∧ windowOk (n + 1) tr
  | _, .cooldown _ :: tr => windowOk 0 tr

/-- A network oracle on which every request fails at transport level. -/
def netErr : List Char → HttpOutcome := fun _ => HttpOutcome.transportError

/-- A DNS environment without the dnspython capability. -/
def noDns : DnsEnv := { available := false, resolve := fun _ _ => false }

/-- A DNS environment where the library is present and every query
succeeds. -/
def dnsAlwaysYes : DnsEnv := { available := true, resolve := fun _ _ => true }

theorem alookup_cons {β : Type} (k k' : List Char) (v : β) (l : List (List Char × β)) :
    alookup k ((k', v) :: l) = if k' = k then some v else alookup k l := rfl

/-- A character kept by the digit filter is an ASCII digit. -/
theorem isAsciiDigit_of_mem_filter {s : List Char} {c : Char}
    (h : c ∈ s.filter isAsciiDigit) : isAsciiDigit c = true :=
  List.of_mem_filter h

/-- An ASCII digit has code point between 48 and 57. -/
theorem toNat_bounds_of_isAsciiDigit {c : Char} (h : isAsciiDigit c = true) :
    48 ≤ c.toNat ∧ c.toNat ≤ 57 := by
  simpa [isAsciiDigit] using h

/-- The section read off a digit string is at most 99. -/
theorem secOfDigits_le (s : List Char) (h : 2 ≤ (s.filter isAsciiDigit).length) :
    secOfDigits (s.filter isAsciiDigit) ≤ 99 := by
  cases hf : s.filter isAsciiDigit with
  | nil => rw [hf] at h; simp at h
  | cons d1 t =>
    cases t with
    | nil => rw [hf] at h; simp at h
    | cons d2 rest =>
      have h1 : isAsciiDigit d1 = true := by
        apply isAsciiDigit_of_mem_filter (s := s); rw [hf]; exact List.mem_cons_self _ _
      have h2 : isAsciiDigit d2 = true := by
        apply isAsciiDigit_of_mem_filter (s := s); rw [hf]
        exact List.mem_cons_of_mem _ (List.mem_cons_self _ _)
      have b1 := toNat_bounds_of_isAsciiDigit h1
      have b2 := toNat_bounds_of_isAsciiDigit h2
      simp only [secOfDigits]
      omega

/-- The sections mapped to the empty label by the range table are exactly
0, 4, 34, 40, 44, 48, 54, 57, 67, 76, 83 and 89. -/
theorem segmentoDaSecao_eq_nil_iff : ∀ sec : Nat, sec ≤ 99 →
    (segmentoDaSecao sec = [] ↔ sec ∈ [0, 4, 34, 40, 44, 48, 54, 57, 67, 76, 83, 89]) := by
  decide

/-- A character list without the separator splits into a single chunk. -/
theorem splitOnChar_of_not_contains (sep : Char) :
    ∀ s : List Char, s.contains sep = false → splitOnChar sep s = [s] := by
  intro s
  induction s with
  | nil => intro _; rfl
  | cons c cs ih =>
    intro h
    simp only [List.contains_cons, Bool.or_eq_false_iff, beq_eq_false_iff_ne] at h
    simp only [splitOnChar, ih h.2]
    rw [if_neg (fun hh => h.1 hh.symm)]

theorem enrichStep_bad (net : List Char → HttpOutcome) (st : EnrichState) (cell : Py)
    (h : limpar_cnpj cell = none) :
    enrichStep net st cell = { out := mkNull, st := st, evs := [] } := by
  simp [enrichStep, h]

theorem enrichStep_hit (net : List Char → HttpOutcome) (st : EnrichState) (cell : Py)
    (k : List Char) (info : Option ApiResult)
    (h1 : limpar_cnpj cell = some k) (h2 : alookup k st.cnpj_cache = some info) :
    enrichStep net st cell = { out := mkOut info, st := st, evs := [] } := by
  simp [enrichStep, h1, h2]

theorem enrichStep_fresh_lt (net : List Char → HttpOutcome) (st : EnrichState) (cell : Py)
    (k : List Char)
    (h1 : limpar_cnpj cell = some k) (h2 : alookup k st.cnpj_cache = none)
    (h3 : st.chamadas_api_no_ciclo < 3) :
    enrichStep net st cell =
      { out := mkOut (consultar_cnpj_api (net k))
        st := { cnpj_cache := (k, consultar_cnpj_api (net k)) :: st.cnpj_cache
                chamadas_api_no_ciclo := st.chamadas_api_no_ciclo + 1 }
        evs := [Ev.call k] } := by
  simp only [enrichStep, h1, h2]
  rw [if_neg (by simp [max_chamadas_por_ciclo]; omega)]
  rfl

theorem enrichStep_fresh_ge (net : List Char → HttpOutcome) (st : EnrichState) (cell : Py)
    (k : List Char)
    (h1 : limpar_cnpj cell = some k) (h2 : alookup k st.cnpj_cache = none)
    (h3 : 3 ≤ st.chamadas_api_no_ciclo) :
    enrichStep net st cell =
      { out := mkOut (consultar_cnpj_api (net k))
        st := { cnpj_cache := (k, consultar_cnpj_api (net k)) :: st.cnpj_cache
                chamadas_api_no_ciclo := 1 }
        evs := [Ev.cooldown 65, Ev.call k] } := by
  simp only [enrichStep, h1, h2]
  rw [if_pos (by simpa [max_chamadas_por_ciclo] using h3)]
  rfl

theorem enrichLoop_cons (net : List Char → HttpOutcome) (cell : Py) (cells : List Py)
    (st : EnrichState) :
    enrichLoop net (cell :: cells) st =
      { outs := (enrichStep net st cell).out :: (enrichLoop net cells (enrichStep net st cell).st).outs
        fin := (enrichLoop net cells (enrichStep net st cell).st).fin
        trace := (enrichStep net st cell).evs ++ (enrichLoop net cells (enrichStep net st cell).st).trace } :=
  rfl

theorem calledIds_append (a b : List Ev) : calledIds (a ++ b) = calledIds a ++ calledIds b :=
  List.filterMap_append a b _

/-- Membership of a call event in a trace, through `calledIds`. -/
theorem call_mem_iff (k : List Char) (tr : List Ev) :
    Ev.call k ∈ tr ↔ k ∈ calledIds tr := by
  induction tr with
  | nil => simp [calledIds]
  | cons e tr ih =>
    cases e with
    | cooldown s => simp [calledIds, List.filterMap_cons] at ih ⊢; exact ih
    | call k0 =>
      simp only [calledIds, List.filterMap_cons] at ih ⊢
      constructor
      · intro h
        rcases List.mem_cons.mp h with h | h
        · rw [Ev.call.injEq] at h; exact List.mem_cons.mpr (Or.inl h)
        · exact List.mem_cons.mpr (Or.inr (ih.mp h))
      · intro h
        rcases List.mem_cons.mp h with h | h
        · exact List.mem_cons.mpr (Or.inl (by rw [h]))
        · exact List.mem_cons.mpr (Or.inr (ih.mpr h))

theorem windowOk_nil (n : Nat) : windowOk n [] = True := rfl

theorem windowOk_call (n : Nat) (k : List Char) (tr : List Ev) :
    windowOk n (Ev.call k :: tr) = (n + 1 ≤ 3 ∧ windowOk (n + 1) tr) := rfl

theorem windowOk_cooldown (n s : Nat) (tr : List Ev) :
    windowOk n (Ev.cooldown s :: tr) = windowOk 0 tr := rfl

/-- Loop invariant: starting from a window counter of at most 3, the
trace of the CNPJ loop respects the quota window discipline. -/
theorem windowOk_loop (net : List Char → HttpOutcome) :
    ∀ (cells : List Py) (st : EnrichState), st.chamadas_api_no_ciclo ≤ 3 →
      windowOk st.chamadas_api_no_ciclo (enrichLoop net cells st).trace := by
  intro cells
  induction cells with
  | nil => intro st _; exact trivial
  | cons cell cells ih =>
    intro st h
    rw [enrichLoop_cons]
    cases hl : limpar_cnpj cell with
    | none =>
      rw [enrichStep_bad net st cell hl]
      exact ih st h
    | some k =>
      cases hc : alookup k st.cnpj_cache with
      | some info =>
        rw [enrichStep_hit net st cell k info hl hc]
        exact ih st h
      | none =>
        by_cases h3 : st.chamadas_api_no_ciclo < 3
        · rw [enrichStep_fresh_lt net st cell k hl hc h3]
          refine ⟨by omega, ?_⟩
          exact ih { cnpj_cache := (k, consultar_cnpj_api (net k)) :: st.cnpj_cache
                     chamadas_api_no_ciclo := st.chamadas_api_no_ciclo + 1 }
            (by show st.chamadas_api_no_ciclo + 1 ≤ 3; omega)
        · rw [enrichStep_fresh_ge net st cell k hl hc (by omega)]
          refine ⟨by omega, ?_⟩
          exact ih { cnpj_cache := (k, consultar_cnpj_api (net k)) :: st.cnpj_cache
                     chamadas_api_no_ciclo := 1 }
            (by show (1 : Nat) ≤ 3; omega)

/-- The window discipline is preserved when dropping a prefix of the
trace (with some residual window count). -/
theorem windowOk_suffix : ∀ (pre rest : List Ev) (n : Nat),
    windowOk n (pre ++ rest) → ∃ m, windowOk m rest := by
  intro pre
  induction pre with
  | nil => intro rest n h; exact ⟨n, h⟩
  | cons e pre ih =>
    intro rest n h
    cases e with
    | call k => exact ih rest (n + 1) h.2
    | cooldown s => exact ih rest 0 h

/-- A cooldown-free segment of a window-disciplined trace holds at most
3 events. -/
theorem windowOk_segment_bound : ∀ (mid : List Ev) (m : Nat) (post : List Ev),
    windowOk m (mid ++ post) → (∀ e ∈ mid, isCooldownEv e = false) →
    mid = [] ∨ mid.length + m ≤ 3 := by
  intro mid
  induction mid with
  | nil => intro m post _ _; exact Or.inl rfl
  | cons e mid ih =>
    intro m post h hmid
    cases e with
    | cooldown s => simpa [isCooldownEv] using hmid _ (List.mem_cons_self _ _)
    | call k =>
      have h1 : m + 1 ≤ 3 := h.1
      have h2 := ih (m + 1) post h.2 (fun e he => hmid e (List.mem_cons_of_mem _ he))
      rcases h2 with h2 | h2
      · subst h2; right; simp only [List.length_cons, List.length_nil]; omega
      · right; simp only [List.length_cons]; omega

/-- For a fresh lookup, the step issues exactly one call (for the
normalised CNPJ) and stores the result in the cache. -/
theorem enrichStep_fresh_fields (net : List Char → HttpOutcome) (st : EnrichState) (cell : Py)
    (k : List Char)
    (h1 : limpar_cnpj cell = some k) (h2 : alookup k st.cnpj_cache = none) :
    calledIds (enrichStep net st cell).evs = [k] ∧
    (enrichStep net st cell).st.cnpj_cache = (k, consultar_cnpj_api (net k)) :: st.cnpj_cache ∧
    (enrichStep net st cell).out = mkOut (consultar_cnpj_api (net k)) := by
  by_cases h3 : st.chamadas_api_no_ciclo < 3
  · rw [enrichStep_fresh_lt net st cell k h1 h2 h3]
    exact ⟨rfl, rfl, rfl⟩
  · rw [enrichStep_fresh_ge net st cell k h1 h2 (by omega)]
    exact ⟨rfl, rfl, rfl⟩

/-- Call discipline of the CNPJ loop: the set of called CNPJs is exactly
the set of normalised CNPJs of the input cells that are not already in
the cache, and no CNPJ is called twice. -/
theorem loop_calls_spec (net : List Char → HttpOutcome) :
    ∀ (cells : List Py) (st : EnrichState),
      (calledIds (enrichLoop net cells st).trace).Nodup ∧
      (∀ k, k ∈ calledIds (enrichLoop net cells st).trace ↔
        (k ∈ cells.filterMap limpar_cnpj ∧ alookup k st.cnpj_cache = none)) := by
  intro cells
  induction cells with
  | nil =>
    intro st
    refine ⟨List.nodup_nil, ?_⟩
    intro k
    simp [enrichLoop, calledIds]
  | cons cell cells ih =>
    intro st
    cases hl : limpar_cnpj cell with
    | none =>
      simp only [enrichLoop_cons, enrichStep_bad net st cell hl, List.nil_append]
      refine ⟨(ih st).1, ?_⟩
      intro k
      rw [(ih st).2 k]
      simp [List.filterMap_cons, hl]
    | some k0 =>
      cases hc : alookup k0 st.cnpj_cache with
      | some info =>
        simp only [enrichLoop_cons, enrichStep_hit net st cell k0 info hl hc, List.nil_append]
        refine ⟨(ih st).1, ?_⟩
        intro k
        rw [(ih st).2 k]
        simp only [List.filterMap_cons, hl]
        by_cases hkk : k = k0
        · subst hkk
          apply iff_of_false
          · rintro ⟨-, hnone⟩; rw [hc] at hnone; exact Option.noConfusion hnone
          · rintro ⟨-, hnone⟩; rw [hc] at hnone; exact Option.noConfusion hnone
        · constructor
          · rintro ⟨hm, hnone⟩; exact ⟨List.mem_cons_of_mem _ hm, hnone⟩
          · rintro ⟨hm, hnone⟩
            rcases List.mem_cons.mp hm with h | h
            · exact absurd h hkk
            · exact ⟨h, hnone⟩
      | none =>
        obtain ⟨hevs, hcache, -⟩ := enrichStep_fresh_fields net st cell k0 hl hc
        have ihs := ih (enrichStep net st cell).st
        simp only [enrichLoop_cons]
        rw [calledIds_append, hevs]
        simp only [List.singleton_append]
        constructor
        · rw [List.nodup_cons]
          refine ⟨?_, ihs.1⟩
          intro hmem
          have h := (ihs.2 k0).mp hmem
          rw [hcache, alookup_cons, if_pos rfl] at h
          exact Option.noConfusion h.2
        · intro k
          simp only [List.filterMap_cons, hl]
          by_cases hkk : k = k0
          · subst hkk
            exact iff_of_true (List.mem_cons_self _ _) ⟨List.mem_cons_self _ _, hc⟩
          · constructor
            · intro hmem
              rcases List.mem_cons.mp hmem with h | h
              · exact absurd h hkk
              · have h2 := (ihs.2 k).mp h
                rw [hcache, alookup_cons, if_neg (fun hh => hkk hh.symm)] at h2
                exact ⟨List.mem_cons_of_mem _ h2.1, h2.2⟩
            · rintro ⟨hmem, hnone⟩
              rcases List.mem_cons.mp hmem with h | h
              · exact absurd h hkk
              · apply List.mem_cons_of_mem
                apply (ihs.2 k).mpr
                refine ⟨h, ?_⟩
                rw [hcache, alookup_cons, if_neg (fun hh => hkk hh.symm)]
                exact hnone

/-- The number of calls of a loop equals the number of distinct
normalised CNPJs not already cached. -/
theorem loop_calls_count (net : List Char → HttpOutcome) (cells : List Py) (st : EnrichState) :
    (calledIds (enrichLoop net cells st).trace).length =
      ((cells.filterMap limpar_cnpj).dedup.filter
        (fun k => (alookup k st.cnpj_cache).isNone)).length := by
  have h := loop_calls_spec net cells st
  apply List.Perm.length_eq
  apply (List.perm_ext_iff_of_nodup h.1 (List.Nodup.filter _ (List.nodup_dedup _))).mpr
  intro k
  rw [h.2 k, List.mem_filter, List.mem_dedup]
  simp [Option.isNone_iff_eq_none]

/-- Concrete record cells used by the witnesses. -/
def cnpjCellA : Py := .pstr (chars "11111111111111")

def cnpjCellB : Py := .pstr (chars "22222222222222")

def cnpjCellC : Py := .pstr (chars "33333333333333")

def cnpjCellD : Py := .pstr (chars "44444444444444")

/-- A dataframe row with the given CNPJ cell and no e-mail. -/
def rowOf (c : Py) : Row := { email := Py.pnone, cnpj := c, extras := [] }

/-- Claim C1: during tax-ID enrichment of any batch, the number of
external registry calls issued without an intervening cooldown never
exceeds 3 (any cooldown-free segment of the run's event trace holds at
most 3 calls); and whenever the per-window counter has reached 3 and a
record needs a fresh lookup, the step first emits the fixed 65-second
cooldown and restarts the window (counter reset to 0, then incremented
to 1 by the call that follows). -/
theorem quota_cooldown_window_bound
    (env : DnsEnv) (net : List Char → HttpOutcome) (df : List Row)
    (pre mid post : List Ev)
    (hsplit : (enriquecer_dataframe env net df).2 = pre ++ mid ++ post)
    (hmid : ∀ e ∈ mid, isCooldownEv e = false)
    (st : EnrichState) (cell : Py) (k : List Char)
    (hk : limpar_cnpj cell = some k)
    (hfresh : alookup k st.cnpj_cache = none)
    (hq : 3 ≤ st.chamadas_api_no_ciclo) :
    callsIn mid ≤ 3 ∧
      enrichStep net st cell =
        { out := mkOut (consultar_cnpj_api (net k))
          st := { cnpj_cache := (k, consultar_cnpj_api (net k)) :: st.cnpj_cache
                  chamadas_api_no_ciclo := 1 }
          evs := [Ev.cooldown 65, Ev.call k] } := by
  constructor
  · have htr : (enriquecer_dataframe env net df).2 = (enrichRun net (df.map fun r => r.cnpj)).trace :=
      rfl
    have hw : windowOk 0 (enrichRun net (df.map fun r => r.cnpj)).trace := by
      have h0 := windowOk_loop net (df.map fun r => r.cnpj)
        { cnpj_cache := [], chamadas_api_no_ciclo := 0 } (by show (0 : Nat) ≤ 3; omega)
      exact h0
    have hx : (enrichRun net (df.map fun r => r.cnpj)).trace = pre ++ mid ++ post :=
      htr.symm.trans hsplit
    rw [hx, List.append_assoc] at hw
    obtain ⟨m, hm⟩ := windowOk_suffix pre (mid ++ post) 0 hw
    rcases windowOk_segment_bound mid m post hm hmid with h | h
    · subst h; simp [callsIn]
    · have hle : callsIn mid ≤ mid.length := List.length_filter_le _ _
      omega
  · exact enrichStep_fresh_ge net st cell k hk hfresh hq

theorem quota_cooldown_window_bound_witness :
    callsIn [Ev.call (chars "11111111111111"), Ev.call (chars "22222222222222"),
             Ev.call (chars "33333333333333")] ≤ 3 ∧
      enrichStep netErr { cnpj_cache := [], chamadas_api_no_ciclo := 3 } cnpjCellD =
        { out := mkOut (consultar_cnpj_api (netErr (chars "44444444444444")))
          st := { cnpj_cache :=
                    [(chars "44444444444444", consultar_cnpj_api (netErr (chars "44444444444444")))]
                  chamadas_api_no_ciclo := 1 }
          evs := [Ev.cooldown 65, Ev.call (chars "44444444444444")] } :=
  quota_cooldown_window_bound noDns netErr
    [rowOf cnpjCellA, rowOf cnpjCellB, rowOf cnpjCellC, rowOf cnpjCellD]
    []
    [Ev.call (chars "11111111111111"), Ev.call (chars "22222222222222"),
     Ev.call (chars "33333333333333")]
    [Ev.cooldown 65, Ev.call (chars "44444444444444")]
    (by decide) (by decide)
    { cnpj_cache := [], chamadas_api_no_ciclo := 3 } cnpjCellD (chars "44444444444444")
    (by decide) rfl (by decide)

/-- Claim C2: within a single enrichment run each distinct normalised
CNPJ is called at most once (the call list has no duplicates and holds
exactly the normalised CNPJs not already cached), the number of calls
equals the number of distinct not-yet-cached normalised CNPJs, and a
record whose normalised CNPJ is cached (even with a `None` result) is
answered from the cache with no call and no counter change. -/
theorem cache_single_call_per_id
    (net : List Char → HttpOutcome) (cells : List Py) (st0 st : EnrichState)
    (cell : Py) (k : List Char) (info : Option ApiResult)
    (hk : limpar_cnpj cell = some k)
    (hcached : alookup k st.cnpj_cache = some info) :
    (calledIds (enrichLoop net cells st0).trace).Nodup ∧
    (∀ k', k' ∈ calledIds (enrichLoop net cells st0).trace ↔
        (k' ∈ cells.filterMap limpar_cnpj ∧ alookup k' st0.cnpj_cache = none)) ∧
    (calledIds (enrichLoop net cells st0).trace).length =
      ((cells.filterMap limpar_cnpj).dedup.filter
        (fun k' => (alookup k' st0.cnpj_cache).isNone)).length ∧
    enrichStep net st cell = { out := mkOut info, st := st, evs := [] } :=
  ⟨(loop_calls_spec net cells st0).1, (loop_calls_spec net cells st0).2,
   loop_calls_count net cells st0, enrichStep_hit net st cell k info hk hcached⟩

/-- Cache state with CNPJ A already stored (negatively) and one call in
the current window, for the C2 witness. -/
def stW : EnrichState :=
  { cnpj_cache := [(chars "11111111111111", none)], chamadas_api_no_ciclo := 1 }

theorem cache_single_call_per_id_witness :
    (calledIds (enrichLoop netErr [cnpjCellA, cnpjCellA, cnpjCellB]
        { cnpj_cache := [], chamadas_api_no_ciclo := 0 }).trace).Nodup ∧
    chars "11111111111111" ∈ calledIds (enrichLoop netErr [cnpjCellA, cnpjCellA, cnpjCellB]
        { cnpj_cache := [], chamadas_api_no_ciclo := 0 }).trace ∧
    (calledIds (enrichLoop netErr [cnpjCellA, cnpjCellA, cnpjCellB]
        { cnpj_cache := [], chamadas_api_no_ciclo := 0 }).trace).length =
      (([cnpjCellA, cnpjCellA, cnpjCellB].filterMap limpar_cnpj).dedup.filter
        (fun k' => (alookup k' ({ cnpj_cache := [], chamadas_api_no_ciclo := 0 }
            : EnrichState).cnpj_cache).isNone)).length ∧
    enrichStep netErr stW cnpjCellA = { out := mkOut none, st := stW, evs := [] } :=
  have h := cache_single_call_per_id netErr [cnpjCellA, cnpjCellA, cnpjCellB]
    { cnpj_cache := [], chamadas_api_no_ciclo := 0 } stW cnpjCellA
    (chars "11111111111111") none (by decide) rfl
  ⟨h.1, (h.2.1 (chars "11111111111111")).mpr ⟨by decide, rfl⟩, h.2.2.1, h.2.2.2⟩

/-- Claim C3 (counterexample): nothing survives between two enrichment
runs.  An ID looked up (and cached, here with a negative result) in a
first run is looked up again by a second run over the same input: the
two-run trace calls the same normalised CNPJ twice. -/
theorem cache_not_durable_counterexample :
    calledIds (two_runs netErr [cnpjCellA] [cnpjCellA])
      = [chars "11111111111111", chars "11111111111111"] ∧
    alookup (chars "11111111111111") (enrichRun netErr [cnpjCellA]).fin.cnpj_cache
      = some none := by
  exact ⟨by decide, rfl⟩

/-- Claim C3 (amended): the CNPJ cache is an in-memory dict local to each
run, re-initialised empty at the start of every run and never persisted;
hence a CNPJ called in one run is called again by any later run whose
input contains it (normalised), the calls of a run depend only on that
run's own input, and the two-run trace is the plain concatenation of two
independent runs. -/
theorem per_run_cache_amended
    (net : List Char → HttpOutcome) (cells1 cells2 : List Py) (k : List Char)
    (_h1 : Ev.call k ∈ (enrichRun net cells1).trace)
    (h2 : k ∈ cells2.filterMap limpar_cnpj) :
    Ev.call k ∈ (enrichRun net cells2).trace ∧
    (∀ k', k' ∈ calledIds (enrichRun net cells2).trace ↔ k' ∈ cells2.filterMap limpar_cnpj) ∧
    two_runs net cells1 cells2 = (enrichRun net cells1).trace ++ (enrichRun net cells2).trace := by
  have hspec := loop_calls_spec net cells2 { cnpj_cache := [], chamadas_api_no_ciclo := 0 }
  have hiff : ∀ k', k' ∈ calledIds (enrichRun net cells2).trace ↔ k' ∈ cells2.filterMap limpar_cnpj := by
    intro k'
    have h := hspec.2 k'
    simpa [alookup] using h
  refine ⟨?_, hiff, rfl⟩
  rw [call_mem_iff]
  exact (hiff k).mpr h2

theorem per_run_cache_amended_witness :
    Ev.call (chars "11111111111111") ∈ (enrichRun netErr [cnpjCellA, cnpjCellB]).trace ∧
    (chars "22222222222222" ∈ calledIds (enrichRun netErr [cnpjCellA, cnpjCellB]).trace ↔
        chars "22222222222222" ∈ [cnpjCellA, cnpjCellB].filterMap limpar_cnpj) ∧
    two_runs netErr [cnpjCellA] [cnpjCellA, cnpjCellB] =
      (enrichRun netErr [cnpjCellA]).trace ++ (enrichRun netErr [cnpjCellA, cnpjCellB]).trace :=
  have h := per_run_cache_amended netErr [cnpjCellA] [cnpjCellA, cnpjCellB]
    (chars "11111111111111") (by decide) (by decide)
  ⟨h.1, h.2.1 (chars "22222222222222"), h.2.2⟩

/-- The CNPJ loop emits exactly one output per input cell. -/
theorem enrichLoop_outs_length (net : List Char → HttpOutcome) :
    ∀ (cells : List Py) (st : EnrichState),
      (enrichLoop net cells st).outs.length = cells.length := by
  intro cells
  induction cells with
  | nil => intro st; rfl
  | cons cell cells ih =>
    intro st
    rw [enrichLoop_cons]
    simp only [List.length_cons, ih]

/-- The domain column has one entry per e-mail cell. -/
theorem domainChecksCol_length (env : DnsEnv) :
    ∀ (ems : List Py) (cache : List (List Char × Bool)),
      (domainChecksCol env ems cache).length = ems.length := by
  intro ems
  induction ems with
  | nil => intro cache; rfl
  | cons em ems ih =>
    intro cache
    simp only [domainChecksCol, List.length_cons, ih]

/-- Positional alignment: when the three computed columns are as long as
the row list, the assembled rows carry the original rows in order. -/
theorem assemble_map_orig : ∀ (rs : List Row) (es ds : List Bool) (os : List RowOut),
    es.length = rs.length → ds.length = rs.length → os.length = rs.length →
    (assemble rs es ds os).map (fun r => r.orig) = rs := by
  intro rs
  induction rs with
  | nil => intro es ds os _ _ _; rfl
  | cons r rs ih =>
    intro es ds os he hd ho
    cases es with
    | nil => simp at he
    | cons e es =>
      cases ds with
      | nil => simp at hd
      | cons d ds =>
        cases os with
        | nil => simp at ho
        | cons o os =>
          simp only [assemble, List.map_cons, List.cons.injEq]
          exact ⟨trivial, ih es ds os (by simpa using he) (by simpa using hd) (by simpa using ho)⟩

/-- Claim C4: the enrichment emits exactly one output row per input row,
in input order (row i of the output carries row i of the input, with all
its original columns verbatim; the enrichment data lives in separate
added fields). -/
theorem enrich_preserves_rows (env : DnsEnv) (net : List Char → HttpOutcome) (df : List Row) :
    (enriquecer_dataframe env net df).1.map (fun r => r.orig) = df := by
  apply assemble_map_orig
  · exact List.length_map df _
  · rw [domainChecksCol_length, List.length_map]
  · simp only [enrichRun]
    rw [enrichLoop_outs_length, List.length_map]

/-- Claim C5 (counterexample): for a record whose CNPJ normalises fine
but whose lookup fails, the emitted segment cell is Python `None` (null),
not the empty-string label the claim announces. -/
theorem row_failure_null_segment_counterexample :
    limpar_cnpj cnpjCellA = some (chars "11111111111111") ∧
    consultar_cnpj_api (netErr (chars "11111111111111")) = none ∧
    (enriquecer_dataframe noDns netErr [rowOf cnpjCellA]).1.map
      (fun r => r.cnpj_out.segmento) = [Py.pnone] ∧
    Py.pnone ≠ Py.pstr (chars "") := by
  refine ⟨by decide, rfl, rfl, fun h => Py.noConfusion h⟩

/-- Claim C5 (amended): per-row failure never aborts the batch and is
encoded in the row.  A record whose tax ID does not normalise to 14
digits short-circuits to the all-null enrichment row without touching
the cache, the counter or the network; a record whose lookup fails still
receives an output row, with all lookup fields null and a null (not
empty-string) segment; and every input cell yields exactly one output
row. -/
theorem row_failure_encoded_amended
    (net : List Char → HttpOutcome) (st : EnrichState) (cells : List Py)
    (cellBad cellOk : Py) (k : List Char)
    (h1 : limpar_cnpj cellBad = none)
    (h2 : limpar_cnpj cellOk = some k)
    (h3 : alookup k st.cnpj_cache = none)
    (h4 : consultar_cnpj_api (net k) = none) :
    enrichStep net st cellBad = { out := mkNull, st := st, evs := [] } ∧
    (enrichStep net st cellOk).out = mkNull ∧
    mkNull.segmento = Py.pnone ∧
    (enrichLoop net cells st).outs.length = cells.length := by
  refine ⟨enrichStep_bad net st cellBad h1, ?_, rfl, enrichLoop_outs_length net cells st⟩
  have h := (enrichStep_fresh_fields net st cellOk k h2 h3).2.2
  rw [h, h4]
  rfl

theorem row_failure_encoded_amended_witness :
    enrichStep netErr { cnpj_cache := [], chamadas_api_no_ciclo := 0 } (Py.pstr (chars "123")) =
      { out := mkNull, st := { cnpj_cache := [], chamadas_api_no_ciclo := 0 }, evs := [] } ∧
    (enrichStep netErr { cnpj_cache := [], chamadas_api_no_ciclo := 0 } cnpjCellA).out = mkNull ∧
    mkNull.segmento = Py.pnone ∧
    (enrichLoop netErr [Py.pstr (chars "123"), cnpjCellA]
      { cnpj_cache := [], chamadas_api_no_ciclo := 0 }).outs.length =
      [Py.pstr (chars "123"), cnpjCellA].length :=
  row_failure_encoded_amended netErr { cnpj_cache := [], chamadas_api_no_ciclo := 0 }
    [Py.pstr (chars "123"), cnpjCellA] (Py.pstr (chars "123")) cnpjCellA
    (chars "11111111111111") (by decide) (by decide) rfl rfl

/-- Claim C6: the segment classifier strips non-digits; fewer than two
digits give the empty label; otherwise the first two digits form the
section, and (for string inputs) the classifier returns the empty label
exactly for the unused sections 0, 4, 34, 40, 44, 48, 54, 57, 67, 76, 83
and 89, while e.g. section 47 yields the retail label, section 01 the
agriculture label and section 99 the international-bodies label. -/
theorem segment_classifier_table :
    (∀ s : List Char, (s.filter isAsciiDigit).length < 2 →
      segmento_macro_por_cnae (.pstr s) = []) ∧
    segmento_macro_por_cnae (.pstr (chars "4711-3/00")) = chars "Comércio / Varejo" ∧
    segmento_macro_por_cnae (.pstr (chars "0100")) = chars "Agropecuária" ∧
    segmento_macro_por_cnae (.pstr (chars "99")) = chars "Organismos internacionais" ∧
    (∀ s : List Char, 2 ≤ (s.filter isAsciiDigit).length →
      (segmento_macro_por_cnae (.pstr s) = [] ↔
        secOfDigits (s.filter isAsciiDigit) ∈ [0, 4, 34, 40, 44, 48, 54, 57, 67, 76, 83, 89])) := by
  refine ⟨?_, by decide, by decide, by decide, ?_⟩
  · intro s h
    simp only [segmento_macro_por_cnae]
    rw [if_pos h]
  · intro s h
    simp only [segmento_macro_por_cnae]
    rw [if_neg (by omega)]
    exact segmentoDaSecao_eq_nil_iff _ (secOfDigits_le s h)

theorem segment_classifier_table_witness :
    segmento_macro_por_cnae (.pstr (chars "a1")) = [] ∧
    segmento_macro_por_cnae (.pstr (chars "4000")) = [] ∧
    segmento_macro_por_cnae (.pstr (chars "4711-3/00")) = chars "Comércio / Varejo" :=
  ⟨segment_classifier_table.1 (chars "a1") (by decide),
   (segment_classifier_table.2.2.2.2 (chars "4000") (by decide)).mpr (by decide),
   segment_classifier_table.2.1⟩

/-- Claim C7 (counterexample): the raw string `a@b. ` has exactly one
at-sign, a non-empty local part `a`, a non-empty domain part `b. `
containing a dot which is not its last character — the claim announces
`true` — yet the function returns `false`, because it first trims the
whole string and the trimmed domain ends with the dot. -/
theorem email_format_trim_counterexample :
    (chars "a@b. ").count '@' = 1 ∧
    splitOnChar '@' (chars "a@b. ") = [chars "a", chars "b. "] ∧
    chars "a" ≠ [] ∧ chars "b. " ≠ [] ∧
    '.' ∈ chars "b. " ∧ (chars "b. ").getLast? ≠ some '.' ∧
    email_valido_formato (.pstr (chars "a@b. ")) = false := by
  decide

/-- Claim C7 (amended): the validator is a total boolean function; it
accepts exactly the string inputs whose whitespace-trimmed form has
exactly one at-sign, with local and domain parts non-blank after
trimming, a dot in the (trimmed) domain, and the (trimmed) domain not
ending with a dot; every non-string input and every other string is
rejected. -/
theorem email_format_amended (v : Py) :
    email_valido_formato v = true ↔
      ∃ s usuario dom, v = .pstr s ∧
        splitOnChar '@' (pyStrip s) = [usuario, dom] ∧
        pyStrip usuario ≠ [] ∧ pyStrip dom ≠ [] ∧
        dom.contains '.' = true ∧ dom.getLast? ≠ some '.' := by
  cases v with
  | pstr s =>
    constructor
    · intro h
      simp only [email_valido_formato] at h
      by_cases hc : (pyStrip s).contains '@' = false
      · rw [if_pos hc] at h; exact absurd h (by simp)
      · rw [if_neg hc] at h
        cases hsp : splitOnChar '@' (pyStrip s) with
        | nil => rw [hsp] at h; exact absurd h (by simp)
        | cons u t =>
          cases t with
          | nil => rw [hsp] at h; exact absurd h (by simp)
          | cons d t2 =>
            cases t2 with
            | cons x t3 => rw [hsp] at h; exact absurd h (by simp)
            | nil =>
              rw [hsp] at h
              have h' : (if pyStrip u = [] then false
                  else if pyStrip d = [] then false
                  else if d.contains '.' = false then false
                  else if d.getLast? = some '.' then false
                  else true) = true := h
              by_cases h1 : pyStrip u = []
              · rw [if_pos h1] at h'; exact absurd h' (by simp)
              · rw [if_neg h1] at h'
                by_cases h2 : pyStrip d = []
                · rw [if_pos h2] at h'; exact absurd h' (by simp)
                · rw [if_neg h2] at h'
                  by_cases h3 : d.contains '.' = false
                  · rw [if_pos h3] at h'; exact absurd h' (by simp)
                  · rw [if_neg h3] at h'
                    by_cases h4 : d.getLast? = some '.'
                    · rw [if_pos h4] at h'; exact absurd h' (by simp)
                    · exact ⟨s, u, d, rfl, hsp, h1, h2, by simpa using h3, h4⟩
    · rintro ⟨s', u, d, hv, hsp, h1, h2, h3, h4⟩
      have hs : s' = s := by injection hv with hss; exact hss.symm
      subst hs
      have hc : (pyStrip s').contains '@' = true := by
        by_contra hcc
        have he : splitOnChar '@' (pyStrip s') = [pyStrip s'] :=
          splitOnChar_of_not_contains '@' (pyStrip s') (by simpa using hcc)
        rw [he] at hsp
        exact absurd hsp (by simp)
      simp only [email_valido_formato]
      rw [if_neg (by rw [hc]; simp), hsp]
      show (if pyStrip u = [] then false
          else if pyStrip d = [] then false
          else if d.contains '.' = false then false
          else if d.getLast? = some '.' then false
          else true) = true
      rw [if_neg h1, if_neg h2, if_neg (by rw [h3]; simp), if_neg h4]
  | pnone =>
    apply iff_of_false
    · simp [email_valido_formato]
    · rintro ⟨s, u, d, hv, -⟩; exact Py.noConfusion hv
  | pbool b =>
    apply iff_of_false
    · simp [email_valido_formato]
    · rintro ⟨s, u, d, hv, -⟩; exact Py.noConfusion hv
  | pint n =>
    apply iff_of_false
    · simp [email_valido_formato]
    · rintro ⟨s, u, d, hv, -⟩; exact Py.noConfusion hv
  | plist xs =>
    apply iff_of_false
    · simp [email_valido_formato]
    · rintro ⟨s, u, d, hv, -⟩; exact Py.noConfusion hv
  | pdict kvs =>
    apply iff_of_false
    · simp [email_valido_formato]
    · rintro ⟨s, u, d, hv, -⟩; exact Py.noConfusion hv

/-- Claim C8 (counterexample): on the whitespace-only input string, the
check returns `false` even though the input is a non-empty string, the
DNS capability is available, and every DNS query (MX and A alike) would
succeed — none of the claim's conditions for a `false` result holds. -/
theorem domain_check_whitespace_counterexample :
    dominio_existe dnsAlwaysYes (.pstr (chars " ")) = false ∧
    chars " " ≠ [] ∧
    dnsAlwaysYes.available = true ∧
    dnsAlwaysYes.resolve (chars " ") RecType.MX = true ∧
    dnsAlwaysYes.resolve (chars " ") RecType.A = true := by
  exact ⟨rfl, by decide, rfl, rfl, rfl⟩

/-- Claim C8 (amended): the check never raises (it is a total boolean
function) and returns `true` exactly when the input is a string that is
non-blank after trimming, the DNS library is importable, and the MX
query or — falling back on its failure — the A query on the trimmed,
lower-cased domain succeeds; in every other situation it returns
`false`. -/
theorem domain_check_amended (env : DnsEnv) (v : Py) :
    dominio_existe env v = true ↔
      ∃ s, v = .pstr s ∧ pyStrip s ≠ [] ∧ env.available = true ∧
        (env.resolve (pyLower (pyStrip s)) RecType.MX = true ∨
         env.resolve (pyLower (pyStrip s)) RecType.A = true) := by
  cases v with
  | pstr s =>
    constructor
    · intro h
      simp only [dominio_existe] at h
      by_cases h0 : pyLower (pyStrip s) = []
      · rw [if_pos h0] at h; exact absurd h (by simp)
      · rw [if_neg h0] at h
        by_cases h1 : env.available = false
        · rw [if_pos h1] at h; exact absurd h (by simp)
        · rw [if_neg h1] at h
          refine ⟨s, rfl, ?_, by revert h1; cases env.available <;> simp, ?_⟩
          · intro hnil; exact h0 (by rw [hnil]; rfl)
          · by_cases hmx : env.resolve (pyLower (pyStrip s)) RecType.MX = true
            · exact Or.inl hmx
            · rw [if_neg (by simpa using hmx)] at h
              by_cases ha : env.resolve (pyLower (pyStrip s)) RecType.A = true
              · exact Or.inr ha
              · rw [if_neg (by simpa using ha)] at h
                exact absurd h (by simp)
    · rintro ⟨s', hv, hne, hav, hq⟩
      have hs : s' = s := by injection hv with hss; exact hss.symm
      subst hs
      simp only [dominio_existe]
      rw [if_neg (by simp [pyLower]; exact hne), if_neg (by rw [hav]; simp)]
      rcases hq with hq | hq
      · rw [if_pos hq]
      · by_cases hmx : env.resolve (pyLower (pyStrip s')) RecType.MX = true
        · rw [if_pos hmx]
        · rw [if_neg (by simpa using hmx), if_pos hq]
  | pnone =>
    apply iff_of_false
    · simp [dominio_existe]
    · rintro ⟨s, hv, -⟩; exact Py.noConfusion hv
  | pbool b =>
    apply iff_of_false
    · simp [dominio_existe]
    · rintro ⟨s, hv, -⟩; exact Py.noConfusion hv
  | pint n =>
    apply iff_of_false
    · simp [dominio_existe]
    · rintro ⟨s, hv, -⟩; exact Py.noConfusion hv
  | plist xs =>
    apply iff_of_false
    · simp [dominio_existe]
    · rintro ⟨s, hv, -⟩; exact Py.noConfusion hv
  | pdict kvs =>
    apply iff_of_false
    · simp [dominio_existe]
    · rintro ⟨s, hv, -⟩; exact Py.noConfusion hv

/-- Claim C9 (counterexample): a 429 response and a generic 500 failure
produce the very same `None` result — the caller cannot distinguish
quota exhaustion from any other failure from the returned value. -/
theorem http429_indistinguishable_counterexample :
    consultar_cnpj_api (.resp 429 (some (.pdict []))) = none ∧
    consultar_cnpj_api (.resp 500 (some (.pdict []))) = none ∧
    consultar_cnpj_api (.resp 429 (some (.pdict []))) =
      consultar_cnpj_api (.resp 500 (some (.pdict []))) ∧
    consultar_cnpj_api .transportError = none := by
  exact ⟨rfl, rfl, rfl, rfl⟩

/-- Claim C9 (amended): the lookup client detects a 429 status with a
dedicated branch, but maps it to the same `None` result as every other
non-200 status and as a transport error, so the returned value does not
distinguish quota exhaustion from generic failure. -/
theorem http429_null_amended (status : Nat) (body : Option Py)
    (h : status ≠ 200) :
    consultar_cnpj_api (.resp status body) = none ∧
    consultar_cnpj_api .transportError = none := by
  constructor
  · simp only [consultar_cnpj_api]
    by_cases h429 : status = 429
    · rw [if_pos h429]
    · rw [if_neg h429, if_pos h]
  · rfl

theorem http429_null_amended_witness :
    consultar_cnpj_api (.resp 429 (some (.pdict [(chars "estabelecimento", Py.pdict [])]))) = none ∧
    consultar_cnpj_api .transportError = none :=
  http429_null_amended 429 (some (.pdict [(chars "estabelecimento", Py.pdict [])])) (by decide)

/-- Claim C10: tax-ID normalisation is total: every input (non-strings
being coerced to their string form first) yields either `None` or a
string of exactly 14 digits — namely the digit characters of the
coerced input — and any input whose digit characters do not number
exactly 14 yields `None`. -/
theorem limpar_cnpj_total_shape (v : Py) (d : List Char)
    (h : limpar_cnpj v = some d) :
    d.length = 14 ∧ (∀ c ∈ d, isAsciiDigit c = true) ∧
    d = (pyStr v).filter isAsciiDigit ∧
    limpar_cnpj v = limpar_cnpj (.pstr (pyStr v)) ∧
    (∀ w : Py, ((pyStr w).filter isAsciiDigit).length ≠ 14 → limpar_cnpj w = none) := by
  have hd : d = (pyStr v).filter isAsciiDigit ∧ ((pyStr v).filter isAsciiDigit).length = 14 := by
    simp only [limpar_cnpj] at h
    by_cases hl : ((pyStr v).filter isAsciiDigit).length ≠ 14
    · rw [if_pos hl] at h; exact Option.noConfusion h
    · rw [if_neg hl] at h
      exact ⟨(Option.some.injEq _ _ ▸ h).symm, by omega⟩
  refine ⟨by rw [hd.1]; exact hd.2, ?_, hd.1, rfl, ?_⟩
  · intro c hc
    rw [hd.1] at hc
    exact List.of_mem_filter hc
  · intro w hw
    simp only [limpar_cnpj]
    rw [if_pos hw]

theorem limpar_cnpj_total_shape_witness :
    (chars "12345678000195").length = 14 ∧
    isAsciiDigit '1' = true ∧
    chars "12345678000195" = (pyStr (.pstr (chars "12.345.678/0001-95"))).filter isAsciiDigit ∧
    limpar_cnpj (.pstr (chars "123")) = none :=
  have h := limpar_cnpj_total_shape (.pstr (chars "12.345.678/0001-95"))
    (chars "12345678000195") (by decide)
  ⟨h.1, h.2.1 '1' (by decide), h.2.2.1, h.2.2.2.2 (.pstr (chars "123")) (by decide)⟩

theorem email_format_amended_witness :
    email_valido_formato (.pstr (chars "a@b.com")) = true :=
  (email_format_amended (.pstr (chars "a@b.com"))).mpr
    ⟨chars "a@b.com", chars "a", chars "b.com", rfl, by decide, by decide, by decide,
     by decide, by decide⟩

theorem domain_check_amended_witness :
    dominio_existe dnsAlwaysYes (.pstr (chars "B.com")) = true :=
  (domain_check_amended dnsAlwaysYes (.pstr (chars "B.com"))).mpr
    ⟨chars "B.com", rfl, by decide, rfl, Or.inl rfl⟩
